import Mathlib

/-!
Shallow embedding of the attachment-upload flow of the go-esa repository
(package esa).  The repository contains two variants of the same file:
`src/esa/attachment.go` (namespace `AttachGo` below) and the unnamed file
`src/unnamed/part_000` (namespace `Part000` below).  Shared declarations
(the policy data model, the constants, `postAttachmentPolicy`, and the
models of the Go standard-library functions the code calls) live at top
level.

Modelling conventions:
- Go byte strings and `[]byte` values are both modelled as Lean `String`,
  one `Char` per byte.  Every literal the code manipulates is ASCII, so
  the abstraction is exact on all strings the claims mention.
- Filesystem reads (`os.Open` followed by reading the handle) are an
  oracle `String → Except String String` mapping a path to its content or
  to an I/O error message.
- The generic HTTP client (`a.client`) is repository code that is not part
  of this fragment; it is modelled from the spec as a pair of oracles (see
  `Client`).  The requests handed to the oracles are recorded in a trace of
  `NetCall` values so that sequencing claims can be stated.
- The multipart boundary, produced by the encoder from a random source, is
  taken as an explicit parameter.
-/

/-- Checks that the first list is a prefix of the second, by direct
recursion (Boolean, executable). -/
def hasPfx : List Char → List Char → Bool
  | [], _ => true
  | _ :: _, [] => false
  | a :: as, b :: bs => a == b && hasPfx as bs

/-- Checks that the first list occurs as a contiguous run inside the
second (Boolean, executable). -/
def hasSub : List Char → List Char → Bool
  | small, [] => small.isEmpty
  | small, b :: bs => hasPfx small (b :: bs) || hasSub small bs

/-- Byte-lexicographic comparison of two byte lists (the ordering of Go
strings). -/
def leChars : List Char → List Char → Bool
  | [], _ => true
  | _ :: _, [] => false
  | a :: as, b :: bs =>
      if a.toNat < b.toNat then true
      else if b.toNat < a.toNat then false
      else leChars as bs

/-- Byte-lexicographic order on strings (Go `<=` on strings). -/
def strLe (a b : String) : Bool := leChars a.data b.data

/-- Inserts a string into an already sorted list of strings (ascending
lexicographic order). -/
def insertStr (x : String) : List String → List String
  | [] => [x]
  | y :: ys => if strLe x y then x :: y :: ys else y :: insertStr x ys

/-- Insertion sort on strings; models `sort.Strings` from the Go standard
library (only the sortedness of the result matters to the callers). -/
def sortStrings : List String → List String
  | [] => []
  | x :: xs => insertStr x (sortStrings xs)

/-- Model of Go `url.Values`: an association list from a key to the list
of its values.  The code only ever builds literals with distinct keys, so
the association-list representation of the Go map is exact. -/
abbrev Values := List (String × List String)

/-- Map lookup `v[k]` on a `Values`: the value list of the first matching
key, or the empty list (Go: the zero value) when the key is absent. -/
def lookupVals (v : Values) (k : String) : List String :=
  match v.find? (fun p => p.1 == k) with
  | some p => p.2
  | none => []

/-- Characters left unescaped by Go `url.QueryEscape`: ASCII letters,
digits, and `-`, `_`, `.`, `~`. -/
def isUnreserved (c : Char) : Bool :=
  decide (('A' ≤ c ∧ c ≤ 'Z') ∨ ('a' ≤ c ∧ c ≤ 'z') ∨ ('0' ≤ c ∧ c ≤ '9') ∨
    c = '-' ∨ c = '_' ∨ c = '.' ∨ c = '~')

/-- Upper-case hexadecimal digit for a value below 16. -/
def hexDigitU (n : Nat) : Char :=
  if n < 10 then Char.ofNat (48 + n) else Char.ofNat (55 + n)

/-- Model of Go `url.QueryEscape`: unreserved bytes kept, space encoded as
`+`, every other byte percent-encoded with upper-case hex digits. -/
def QueryEscape (s : String) : String :=
  String.join (s.data.map (fun c =>
    if isUnreserved c then String.mk [c]
    else if c = ' ' then "+"
    else String.mk ['%', hexDigitU (c.toNat / 16 % 16), hexDigitU (c.toNat % 16)]))

/-- Model of Go `url.Values.Encode`: keys sorted, each key/value pair
emitted as `QueryEscape k ++ "=" ++ QueryEscape v`, pairs joined by `&`. -/
def Values.Encode (v : Values) : String :=
  String.intercalate "&"
    (((sortStrings (v.map Prod.fst)).map (fun k =>
      (lookupVals v k).map (fun x => QueryEscape k ++ "=" ++ QueryEscape x))).foldr
      (fun a b => a ++ b) [])

/-- Model of `fmt` formatting of a Go `[]string` value: the elements
space-separated inside square brackets. -/
def fmtStringSlice (l : List String) : String :=
  "[" ++ String.intercalate " " l ++ "]"

/-- Model of `fmt` `%v` formatting of a Go `url.Values` map: `map[` then
the space-separated `key:[values]` entries in sorted key order, then `]`. -/
def fmtValues (v : Values) : String :=
  "map[" ++
    String.intercalate " "
      ((sortStrings (v.map Prod.fst)).map
        (fun k => k ++ ":" ++ fmtStringSlice (lookupVals v k))) ++
  "]"

/-- Model of Go `path/filepath.Base` on Unix: empty path gives `.`,
trailing separators are stripped, everything up to and including the last
separator is dropped, and a path consisting only of separators gives `/`. -/
def Base (path : String) : String :=
  if path = "" then "." else
  let l1 := ((path.data.reverse.dropWhile (fun c => c == '/'))).reverse
  let l2 := (l1.reverse.takeWhile (fun c => c != '/')).reverse
  if l2 = [] then "/" else String.mk l2

/-- Model of Go `net/http.StatusText`: the standard reason phrase of an
HTTP status code, or the empty string for an unknown code. -/
def StatusText (code : Nat) : String :=
  match code with
  | 100 => "Continue"
  | 101 => "Switching Protocols"
  | 102 => "Processing"
  | 103 => "Early Hints"
  | 200 => "OK"
  | 201 => "Created"
  | 202 => "Accepted"
  | 203 => "Non-Authoritative Information"
  | 204 => "No Content"
  | 205 => "Reset Content"
  | 206 => "Partial Content"
  | 207 => "Multi-Status"
  | 208 => "Already Reported"
  | 226 => "IM Used"
  | 300 => "Multiple Choices"
  | 301 => "Moved Permanently"
  | 302 => "Found"
  | 303 => "See Other"
  | 304 => "Not Modified"
  | 305 => "Use Proxy"
  | 307 => "Temporary Redirect"
  | 308 => "Permanent Redirect"
  | 400 => "Bad Request"
  | 401 => "Unauthorized"
  | 402 => "Payment Required"
  | 403 => "Forbidden"
  | 404 => "Not Found"
  | 405 => "Method Not Allowed"
  | 406 => "Not Acceptable"
  | 407 => "Proxy Authentication Required"
  | 408 => "Request Timeout"
  | 409 => "Conflict"
  | 410 => "Gone"
  | 411 => "Length Required"
  | 412 => "Precondition Failed"
  | 413 => "Request Entity Too Large"
  | 414 => "Request URI Too Long"
  | 415 => "Unsupported Media Type"
  | 416 => "Requested Range Not Satisfiable"
  | 417 => "Expectation Failed"
  | 418 => "I\x27m a teapot"
  | 421 => "Misdirected Request"
  | 422 => "Unprocessable Entity"
  | 423 => "Locked"
  | 424 => "Failed Dependency"
  | 425 => "Too Early"
  | 426 => "Upgrade Required"
  | 428 => "Precondition Required"
  | 429 => "Too Many Requests"
  | 431 => "Request Header Fields Too Large"
  | 451 => "Unavailable For Legal Reasons"
  | 500 => "Internal Server Error"
  | 501 => "Not Implemented"
  | 502 => "Bad Gateway"
  | 503 => "Service Unavailable"
  | 504 => "Gateway Timeout"
  | 505 => "HTTP Version Not Supported"
  | 506 => "Variant Also Negotiates"
  | 507 => "Insufficient Storage"
  | 508 => "Loop Detected"
  | 510 => "Not Extended"
  | 511 => "Network Authentication Required"
  | _ => ""

/-- Status code `http.StatusNoContent`. -/
def StatusNoContent : Nat := 204

/-- Sniffing window of Go `net/http.DetectContentType`: at most the first
512 bytes of the payload are considered. -/
def sniffLen : Nat := 512

/-- Whitespace bytes skipped before sniffing (Go `isWS`). -/
def isWS (c : Char) : Bool :=
  c == '\t' || c == '\n' || c == Char.ofNat 12 || c == '\r' || c == ' '

/-- Signature kinds of the Go content-sniffing table (`net/http/sniff.go`):
HTML tag signatures, masked byte signatures, exact prefixes, the MP4 box
scan, and the plain-text fallback. -/
inductive SniffSig where
  | html (sig : String)
  | masked (mask : List Nat) (pat : String) (skipWS : Bool) (ct : String)
  | exact (pat : String) (ct : String)
  | mp4
  | text

/-- Case-insensitive comparison step of an HTML tag signature: an
upper-case letter of the signature clears bit 0x20 of the payload byte
before comparing; on full match the remaining payload is returned. -/
def htmlCmp : List Char → List Char → Option (List Char)
  | [], rest => some rest
  | _ :: _, [] => none
  | b :: bs, d :: ds =>
      let db := if decide ('A' ≤ b ∧ b ≤ 'Z') then Char.ofNat (d.toNat &&& 0xDF) else d
      if b == db then htmlCmp bs ds else none

/-- Match of an HTML tag signature against the payload (already positioned
after the leading whitespace): the signature bytes must match
case-insensitively and the following byte must be a space or `>`. -/
def matchHtml (sig : String) (data : List Char) : Bool :=
  match htmlCmp sig.data data with
  | some (t :: _) => t == ' ' || t == '>'
  | _ => false

/-- Match of a masked signature: each payload byte is ANDed with the mask
byte and compared against the pattern byte; the payload must be at least
as long as the pattern. -/
def matchMask : List Nat → List Char → List Char → Bool
  | [], [], _ => true
  | m :: ms, p :: ps, d :: ds => (d.toNat &&& m) == p.toNat && matchMask ms ps ds
  | _, _, _ => false

/-- Bytes that disqualify the plain-text fallback (Go `textSig`): control
bytes other than tab, newline, form feed, carriage return and escape. -/
def isBinaryByte (n : Nat) : Bool :=
  decide (n ≤ 0x08 ∨ n = 0x0B ∨ (0x0E ≤ n ∧ n ≤ 0x1A) ∨ (0x1C ≤ n ∧ n ≤ 0x1F))

/-- Scan of the MP4 `ftyp` box: brands at offsets 8, 16, 20, ... (offset
12 is the minor version and is skipped) are checked for the prefix `mp4`.
The first argument is fuel bounding the recursion. -/
def mp4Scan (data : List Char) (boxSize : Nat) : Nat → Nat → Bool
  | 0, _ => false
  | fuel + 1, st =>
      if st < boxSize then
        if st ≠ 12 && hasPfx "mp4".data (data.drop st) then true
        else mp4Scan data boxSize fuel (st + 4)
      else false

/-- Match of the MP4 signature (Go `mp4Sig`): a big-endian box size that
is a multiple of four and within the payload, the `ftyp` tag, and an
`mp4` brand somewhere in the compatible-brands list. -/
def matchMP4 (data : List Char) : Bool :=
  match data with
  | b0 :: b1 :: b2 :: b3 :: rest =>
      if data.length < 12 then false else
      let boxSize := b0.toNat * 16777216 + b1.toNat * 65536 + b2.toNat * 256 + b3.toNat
      if boxSize % 4 ≠ 0 || data.length < boxSize then false else
      if !hasPfx "ftyp".data rest then false else
      mp4Scan data boxSize boxSize 8
  | _ => false

/-- Dispatch of one sniffing signature on the payload; `fnws` is the index
of the first non-whitespace byte.  Returns the detected content type, or
`none` when the signature does not match. -/
def SniffSig.matchSig (s : SniffSig) (data : List Char) (fnws : Nat) : Option String :=
  match s with
  | .html sig => if matchHtml sig (data.drop fnws) then some "text/html; charset=utf-8" else none
  | .masked mask pat skipWS ct =>
      let d := if skipWS then data.drop fnws else data
      if matchMask mask pat.data d then some ct else none
  | .exact pat ct => if hasPfx pat.data data then some ct else none
  | .mp4 => if matchMP4 data then some "video/mp4" else none
  | .text => if (data.drop fnws).all (fun c => !isBinaryByte c.toNat) then
      some "text/plain; charset=utf-8" else none

/-- Content-sniffing table of Go `net/http` (sniff.go), in order: HTML tag
signatures, the XML signature, document and text signatures, image
signatures, audio and video signatures, font signatures, archive
signatures, and the plain-text fallback. -/
def sniffSignatures : List SniffSig := [
  .html "<!DOCTYPE HTML",
  .html "<HTML",
  .html "<HEAD",
  .html "<SCRIPT",
  .html "<IFRAME",
  .html "<H1",
  .html "<DIV",
  .html "<FONT",
  .html "<TABLE",
  .html "<A",
  .html "<STYLE",
  .html "<TITLE",
  .html "<B",
  .html "<BODY",
  .html "<BR",
  .html "<P",
  .html "<!--",
  .masked [0xFF, 0xFF, 0xFF, 0xFF, 0xFF] "<?xml" true "text/xml; charset=utf-8",
  .exact "%PDF-" "application/pdf",
  .exact "%!PS-Adobe-" "application/postscript",
  .masked [0xFF, 0xFF, 0x00, 0x00] "\xFE\xFF\x00\x00" false "text/plain; charset=utf-16be",
  .masked [0xFF, 0xFF, 0x00, 0x00] "\xFF\xFE\x00\x00" false "text/plain; charset=utf-16le",
  .masked [0xFF, 0xFF, 0xFF, 0x00] "\xEF\xBB\xBF\x00" false "text/plain; charset=utf-8",
  .exact "\x00\x00\x01\x00" "image/x-icon",
  .exact "\x00\x00\x02\x00" "image/x-icon",
  .exact "BM" "image/bmp",
  .exact "GIF87a" "image/gif",
  .exact "GIF89a" "image/gif",
  .masked [0xFF, 0xFF, 0xFF, 0xFF, 0x00, 0x00, 0x00, 0x00, 0xFF, 0xFF, 0xFF, 0xFF, 0xFF, 0xFF]
    "RIFF\x00\x00\x00\x00WEBPVP" false "image/webp",
  .exact "\x89PNG\x0D\x0A\x1A\x0A" "image/png",
  .exact "\xFF\xD8\xFF" "image/jpeg",
  .masked [0xFF, 0xFF, 0xFF, 0xFF] ".snd" false "audio/basic",
  .masked [0xFF, 0xFF, 0xFF, 0xFF, 0x00, 0x00, 0x00, 0x00, 0xFF, 0xFF, 0xFF, 0xFF]
    "FORM\x00\x00\x00\x00AIFF" false "audio/aiff",
  .masked [0xFF, 0xFF, 0xFF] "ID3" false "audio/mpeg",
  .masked [0xFF, 0xFF, 0xFF, 0xFF, 0xFF] "OggS\x00" false "application/ogg",
  .masked [0xFF, 0xFF, 0xFF, 0xFF, 0xFF, 0xFF, 0xFF, 0xFF] "MThd\x00\x00\x00\x06" false "audio/midi",
  .masked [0xFF, 0xFF, 0xFF, 0xFF, 0x00, 0x00, 0x00, 0x00, 0xFF, 0xFF, 0xFF, 0xFF]
    "RIFF\x00\x00\x00\x00AVI " false "video/avi",
  .masked [0xFF, 0xFF, 0xFF, 0xFF, 0x00, 0x00, 0x00, 0x00, 0xFF, 0xFF, 0xFF, 0xFF]
    "RIFF\x00\x00\x00\x00WAVE" false "audio/wave",
  .mp4,
  .exact "\x1A\x45\xDF\xA3" "video/webm",
  .masked
    [0x00, 0x00, 0x00, 0x00, 0x00, 0x00, 0x00, 0x00, 0x00, 0x00, 0x00, 0x00, 0x00, 0x00,
     0x00, 0x00, 0x00, 0x00, 0x00, 0x00, 0x00, 0x00, 0x00, 0x00, 0x00, 0x00, 0x00, 0x00,
     0x00, 0x00, 0x00, 0x00, 0x00, 0x00, 0xFF, 0xFF]
    "\x00\x00\x00\x00\x00\x00\x00\x00\x00\x00\x00\x00\x00\x00\x00\x00\x00\x00\x00\x00\x00\x00\x00\x00\x00\x00\x00\x00\x00\x00\x00\x00\x00\x00LP"
    false "application/vnd.ms-fontobject",
  .exact "\x00\x01\x00\x00" "font/ttf",
  .exact "OTTO" "font/otf",
  .exact "ttcf" "font/collection",
  .exact "wOFF" "font/woff",
  .exact "wOF2" "font/woff2",
  .exact "\x1F\x8B\x08" "application/x-gzip",
  .exact "PK\x03\x04" "application/zip",
  .exact "Rar!\x1A\x07\x00" "application/x-rar-compressed",
  .exact "\x00\x61\x73\x6D" "application/wasm",
  .text]

/-- Model of Go `net/http.DetectContentType`: the payload is truncated to
the first 512 bytes, leading whitespace is located, the signature table is
tried in order, and `application/octet-stream` is the fallback. -/
def DetectContentType (data : String) : String :=
  let d := data.data.take sniffLen
  let fnws := (d.takeWhile isWS).length
  match sniffSignatures.findSome? (fun s => s.matchSig d fnws) with
  | some ct => ct
  | none => "application/octet-stream"

/-- Constant `AttchmentPolicyURL` of package esa (the typo is the
source's). -/
def AttchmentPolicyURL : String := "/attachments/policies"

/-- Constant `PolicyBodyType` of package esa. -/
def PolicyBodyType : String := "application/x-www-form-urlencoded"

/-- Field `attachment` of the policy response (struct `AttachmentValue`). -/
structure AttachmentValue where
  Endpoint : String
  Url : String
deriving DecidableEq

/-- Field `form` of the policy response (struct `FormValue`). -/
structure FormValue where
  AWSAccessKeyId : String
  Signature : String
  Policy : String
  Key : String
  ContentType : String
  CacheControl : String
  ContentDisposition : String
  Acl : String
deriving DecidableEq

/-- Struct `AttachmentPolicyResponse`: the parsed JSON policy response. -/
structure AttachmentPolicyResponse where
  Attachment : AttachmentValue
  Form : FormValue
deriving DecidableEq

/-- HTTP request issued to the policy endpoint: URL, content type, and
form-encoded body. -/
structure PolicyRequest where
  url : String
  bodyType : String
  body : String
deriving DecidableEq

/-- HTTP request issued to the object-storage endpoint: endpoint URL,
content-type header, and multipart body. -/
structure StorageRequest where
  endpoint : String
  contentType : String
  body : String
deriving DecidableEq

/-- An HTTP request issued by the upload flow, in the order of issue. -/
inductive NetCall where
  | policy (r : PolicyRequest)
  | storage (r : StorageRequest)
deriving DecidableEq

/-- Modelled from the spec: the generic HTTP client injected into
`AttachmentService` is repository code outside this fragment.  Per the
spec it offers a POST that decodes a JSON response (`postPolicy`, used by
`client.post`) and a raw POST returning a response with a status code
(`postRaw`, used by `client.Client.Post`).  Both take the URL, the
content-type and the body, and either fail with a transport or decode
error or return, respectively, the decoded policy response and the
response status code. -/
structure Client where
  postPolicy : String → String → String → Except String AttachmentPolicyResponse
  postRaw : String → String → String → Except String Nat

/-- State of a Go `mime/multipart.Writer` over a `bytes.Buffer`: the
boundary, the bytes written so far, and whether a part has been opened
(Go: `lastpart != nil`). -/
structure MPWriter where
  boundary : String
  buf : String
  hasPart : Bool

/-- Model of `strings.NewReplacer("\\", "\\\\", "\"", "\\\"")` used by the
multipart writer on field and file names. -/
def escapeQuotes (s : String) : String :=
  String.mk (s.data.foldr
    (fun c acc =>
      if c = '\\' then '\\' :: '\\' :: acc
      else if c = '"' then '\\' :: '"' :: acc
      else c :: acc) [])

/-- Model of `multipart.Writer.WriteField`: opens a form-data part with
the given field name (a `\r\n--boundary\r\n` delimiter, or without the
leading CRLF for the very first part), writes the Content-Disposition
header, a blank line, and the value. -/
def MPWriter.WriteField (w : MPWriter) (fieldname value : String) : MPWriter :=
  MPWriter.mk w.boundary
    (w.buf ++ (if w.hasPart then "\r\n--" else "--") ++ w.boundary ++ "\r\n" ++
      "Content-Disposition: form-data; name=\"" ++ escapeQuotes fieldname ++ "\"\r\n" ++
      "\r\n" ++ value)
    true

/-- Model of `multipart.Writer.CreateFormFile` immediately followed by
copying `content` into the returned part: the part carries a
Content-Disposition header with field and file names and a Content-Type
of `application/octet-stream` (header keys in the sorted order Go emits),
then the raw content. -/
def MPWriter.CreateFormFile (w : MPWriter) (fieldname filename content : String) : MPWriter :=
  MPWriter.mk w.boundary
    (w.buf ++ (if w.hasPart then "\r\n--" else "--") ++ w.boundary ++ "\r\n" ++
      "Content-Disposition: form-data; name=\"" ++ escapeQuotes fieldname ++
        "\"; filename=\"" ++ escapeQuotes filename ++ "\"\r\n" ++
      "Content-Type: application/octet-stream\r\n" ++
      "\r\n" ++ content)
    true

/-- Model of `multipart.Writer.Close`: appends the terminating boundary
`\r\n--boundary--\r\n`. -/
def MPWriter.CloseWriter (w : MPWriter) : MPWriter :=
  MPWriter.mk w.boundary (w.buf ++ "\r\n--" ++ w.boundary ++ "--\r\n") false

/-- Model of `multipart.Writer.FormDataContentType`: the boundary is
quoted when it contains a byte from the special set. -/
def FormDataContentType (boundary : String) : String :=
  if boundary.data.any (fun c => "()<>@,;:\\\"/[]?= ".data.contains c) then
    "multipart/form-data; boundary=\"" ++ boundary ++ "\""
  else
    "multipart/form-data; boundary=" ++ boundary

/-- Multipart body consisting of the given plain text fields in order
followed by one file part named `file` with the given file name and
content, before the writer is closed (no terminating boundary). -/
def multipartParts (boundary : String) (fields : List (String × String))
    (fileName fileContent : String) : String :=
  ((fields.foldl (fun w p => w.WriteField p.1 p.2) (MPWriter.mk boundary "" false)).CreateFormFile
    "file" fileName fileContent).buf

/-- Multipart form-data encoding (as produced by the Go multipart writer,
including its terminating boundary) of a list of plain text fields in
order, followed by one file part named `file` carrying the given file
name and content.  This is the reference encoding the spec describes for
the upload body. -/
def multipartEncoding (boundary : String) (fields : List (String × String))
    (fileName fileContent : String) : String :=
  multipartParts boundary fields fileName fileContent ++ ("\r\n--" ++ boundary ++ "--\r\n")

/-- The eight policy form fields in the order the source writes them. -/
def formFields (f : FormValue) : List (String × String) :=
  [("AWSAccessKeyId", f.AWSAccessKeyId),
   ("signature", f.Signature),
   ("policy", f.Policy),
   ("key", f.Key),
   ("Content-Type", f.ContentType),
   ("Cache-Control", f.CacheControl),
   ("Content-Disposition", f.ContentDisposition),
   ("acl", f.Acl)]

/-- Method `postAttachmentPolicy` (identical in both source variants):
composes the policy URL from the base team URL, the team name and
`AttchmentPolicyURL`, encodes the values as the request body, and posts
with content type `PolicyBodyType`.  The `TeamURL` constant is defined
elsewhere in the repository and is taken as a parameter (modelled from
the spec as the base team URL).  The second component records the HTTP
request handed to the client, for the call trace. -/
def postAttachmentPolicy (c : Client) (TeamURL teamName : String) (values : Values) :
    Except String AttachmentPolicyResponse × PolicyRequest :=
  let teamURL := TeamURL ++ "/" ++ teamName ++ AttchmentPolicyURL
  let req := PolicyRequest.mk teamURL PolicyBodyType (Values.Encode values)
  (c.postPolicy req.url req.bodyType req.body, req)

namespace AttachGo

/-- Method `getFileInfo` of `src/esa/attachment.go`: reads the file fully
and returns the `url.Values` with the sniffed content type, the base
name, and the decimal byte length — or the I/O error.  The pair of
options mirrors the Go `(url.Values, error)` return. -/
def getFileInfo (fs : String → Except String String) (path : String) :
    Option Values × Option String :=
  match fs path with
  | .error e => (none, some e)
  | .ok data =>
      (some [("type", [DetectContentType data]),
             ("name", [Base path]),
             ("size", [toString data.length])], none)

/-- Method `UploadAttachmentFile` of `src/esa/attachment.go`: inspects the
file, requests the upload policy, re-opens the file, builds the multipart
body (eight policy fields then the file part), closes the writer, posts
to the policy endpoint, and returns the attachment URL on a 204 response.
`fs1` is the filesystem at the first read (inspection) and `fs2` at the
second (`os.Open` before `io.Copy`); errors are returned bare.  The
second component is the trace of HTTP requests issued. -/
def UploadAttachmentFile (c : Client) (TeamURL boundary : String)
    (fs1 fs2 : String → Except String String) (teamName path : String) :
    (String × Option String) × List NetCall :=
  match getFileInfo fs1 path with
  | (_, some e) => (("", some e), [])
  | (values?, none) =>
    let values := values?.getD []
    let pr := postAttachmentPolicy c TeamURL teamName values
    match pr.1 with
    | .error e => (("", some e), [NetCall.policy pr.2])
    | .ok policy =>
      match fs2 path with
      | .error e => (("", some e), [NetCall.policy pr.2])
      | .ok data =>
        let w := (formFields policy.Form).foldl
          (fun w p => w.WriteField p.1 p.2) (MPWriter.mk boundary "" false)
        let w := w.CreateFormFile "file" (Base path) data
        let w := w.CloseWriter
        let sreq := StorageRequest.mk policy.Attachment.Endpoint
          (FormDataContentType boundary) w.buf
        match c.postRaw sreq.endpoint sreq.contentType sreq.body with
        | .error e => (("", some e), [NetCall.policy pr.2, NetCall.storage sreq])
        | .ok status =>
          if status ≠ StatusNoContent then
            (("", some (StatusText status)), [NetCall.policy pr.2, NetCall.storage sreq])
          else
            ((policy.Attachment.Url, none), [NetCall.policy pr.2, NetCall.storage sreq])

end AttachGo

namespace Part000

/-- Method `getFileInfo` of `src/unnamed/part_000`: as the other variant,
but the raw content is returned alongside the values.  The triple of
options mirrors the Go `(url.Values, []byte, error)` return. -/
def getFileInfo (fs : String → Except String String) (path : String) :
    Option Values × Option String × Option String :=
  match fs path with
  | .error e => (none, none, some e)
  | .ok data =>
      (some [("type", [DetectContentType data]),
             ("name", [Base path]),
             ("size", [toString data.length])], some data, none)

/-- Method `UploadAttachmentFile` of `src/unnamed/part_000`: inspects the
file, requests the upload policy, builds the multipart body from the
bytes already read (no second read), posts, and returns the attachment
URL on a 204 response.  Each error is wrapped with the failing stage and
its inputs, as the source's `fmt.Errorf` calls do.  The writer's `Close`
is deferred in the source, so it runs only after the POST has consumed
the buffer: the posted body carries no terminating boundary.  The second
component is the trace of HTTP requests issued. -/
def UploadAttachmentFile (c : Client) (TeamURL boundary : String)
    (fs : String → Except String String) (teamName path : String) :
    (String × Option String) × List NetCall :=
  match getFileInfo fs path with
  | (_, _, some e) =>
      (("", some ("getFileInfo Failed (path: " ++ path ++ "): " ++ e ++ "\n")), [])
  | (values?, data?, none) =>
    let values := values?.getD []
    let data := data?.getD ""
    let pr := postAttachmentPolicy c TeamURL teamName values
    match pr.1 with
    | .error e =>
        (("", some ("postAttachmentPolicy Failed (values: " ++ fmtValues values ++ "): " ++
          e ++ "\n")), [NetCall.policy pr.2])
    | .ok policy =>
      let w := (formFields policy.Form).foldl
        (fun w p => w.WriteField p.1 p.2) (MPWriter.mk boundary "" false)
      let w := w.CreateFormFile "file" (Base path) data
      let sreq := StorageRequest.mk policy.Attachment.Endpoint
        (FormDataContentType boundary) w.buf
      match c.postRaw sreq.endpoint sreq.contentType sreq.body with
      | .error e =>
          (("", some ("Post Failed (endpoint: " ++ policy.Attachment.Endpoint ++ "): " ++
            e ++ "\n")), [NetCall.policy pr.2, NetCall.storage sreq])
      | .ok status =>
        if status ≠ StatusNoContent then
          (("", some ("HTTP status is not http.StatusNoContent: " ++ StatusText status ++ "\n")),
            [NetCall.policy pr.2, NetCall.storage sreq])
        else
          ((policy.Attachment.Url, none), [NetCall.policy pr.2, NetCall.storage sreq])

end Part000

/-!
Concrete fixtures: a policy response, filesystems, and clients used to
instantiate the theorems below on explicit inputs.
-/

/-- Concrete policy response used by the concrete instances below. -/
def samplePolicy : AttachmentPolicyResponse :=
  AttachmentPolicyResponse.mk (AttachmentValue.mk "http://x/ep" "http://x/pub/f.txt")
    (FormValue.mk "AK" "SIG" "POL" "KEY" "CT" "CC" "CD" "ACL")

/-- Concrete filesystem: `f.txt` holds the two bytes `hi`, everything
else fails to open. -/
def sampleFs : String → Except String String :=
  fun p => if p = "f.txt" then .ok "hi" else .error "no such file"

/-- Concrete filesystem whose `f.txt` holds `XYZ` (three bytes), used to
model the file changing between two reads. -/
def sampleFsChanged : String → Except String String :=
  fun p => if p = "f.txt" then .ok "XYZ" else .error "no such file"

/-- Concrete client: the policy endpoint returns `samplePolicy`, the
object-storage endpoint returns 204. -/
def sampleClientOk : Client :=
  Client.mk (fun _ _ _ => .ok samplePolicy) (fun _ _ _ => .ok 204)

/-- Concrete client whose object-storage endpoint returns 403. -/
def sampleClient403 : Client :=
  Client.mk (fun _ _ _ => .ok samplePolicy) (fun _ _ _ => .ok 403)

/-- Concrete client whose policy endpoint fails with a transport error. -/
def sampleClientPolicyFail : Client :=
  Client.mk (fun _ _ _ => .error "boom") (fun _ _ _ => .ok 204)

/-- Concrete client whose object-storage POST fails with a transport
error. -/
def sampleClientRawFail : Client :=
  Client.mk (fun _ _ _ => .ok samplePolicy) (fun _ _ _ => .error "conn refused")

/-! Helper lemmas. -/

/-- Head of a non-empty `dropWhile` result fails the predicate. -/
theorem dropWhileHeadNot {α : Type _} (p : α → Bool) :
    ∀ (l : List α) (d : α) (t : List α), l.dropWhile p = d :: t → p d = false := by
  intro l
  induction l with
  | nil => intro d t h; simp at h
  | cons a l ih =>
    intro d t h
    by_cases hp : p a = true
    · rw [List.dropWhile_cons_of_pos hp] at h
      exact ih d t h
    · rw [List.dropWhile_cons_of_neg hp] at h
      injection h with h1 h2
      subst h1
      simpa using hp

/-- Base name of a path with at least one non-separator byte contains no
separator. -/
theorem base_no_slash (path : String) (h : ∃ c ∈ path.data, c ≠ '/') :
    (Base path).data.all (fun c => c != '/') = true := by
  obtain ⟨c, hc, hcne⟩ := h
  have hne : path ≠ "" := by
    intro he
    subst he
    simp at hc
  simp only [Base, if_neg hne, List.reverse_reverse]
  have hdw : path.data.reverse.dropWhile (fun c => c == '/') ≠ [] := by
    rw [Ne, List.dropWhile_eq_nil_iff]
    push_neg
    exact ⟨c, by simpa using hc, by simpa using hcne⟩
  obtain ⟨d, t, hdt⟩ := List.exists_cons_of_ne_nil hdw
  have hd : (d == '/') = false := dropWhileHeadNot (fun c => c == '/') _ d t hdt
  have hd2 : (d != '/') = true := by simp [bne, hd]
  rw [hdt]
  have htw : List.takeWhile (fun c => c != '/') (d :: t) =
      d :: List.takeWhile (fun c => c != '/') t := by
    simp [List.takeWhile_cons, hd2]
  rw [htw]
  have hnil : (d :: List.takeWhile (fun c => c != '/') t).reverse ≠ [] := by
    simp
  rw [if_neg hnil]
  rw [List.all_eq_true]
  intro x hx
  have hx2 : x = d ∨ x ∈ List.takeWhile (fun c => c != '/') t := by
    simpa [or_comm] using hx
  rcases hx2 with rfl | hx3
  · exact hd2
  · exact @List.mem_takeWhile_imp Char (fun c => c != '/') t x hx3

/-- Writing a field does not change the boundary of the writer. -/
theorem boundary_WriteField (w : MPWriter) (n v : String) :
    (w.WriteField n v).boundary = w.boundary := rfl

/-- Creating the file part does not change the boundary of the writer. -/
theorem boundary_CreateFormFile (w : MPWriter) (n f ct : String) :
    (w.CreateFormFile n f ct).boundary = w.boundary := rfl

/-- Writing any list of fields does not change the boundary of the
writer. -/
theorem boundary_foldl_WriteField (fields : List (String × String)) :
    ∀ w : MPWriter,
      (fields.foldl (fun w p => w.WriteField p.1 p.2) w).boundary = w.boundary := by
  induction fields with
  | nil => intro w; rfl
  | cons p ps ih =>
      intro w
      simp only [List.foldl_cons, ih, boundary_WriteField]

/-! Claim theorems. -/

set_option maxRecDepth 20000 in
/-- Claim C1 (code bug, concrete evaluation): the claim says the body
POSTed to the object-storage endpoint is the complete multipart encoding,
terminating boundary included.  The `attachment.go` variant satisfies
this: its POSTed body is exactly `multipartEncoding` of the eight policy
fields and the file part, sent to `policy.Attachment.Endpoint` with the
content type the encoder produces.  The `part_000` variant defers
`w.Close()` past the POST, so the body it sends is `multipartParts` —
the same encoding with the terminating boundary missing — which differs
from the complete encoding. -/
theorem c1_terminating_boundary :
    (AttachGo.UploadAttachmentFile sampleClientOk "T" "b0" sampleFs sampleFs "acme" "f.txt").2 =
      [NetCall.policy (PolicyRequest.mk "T/acme/attachments/policies"
          "application/x-www-form-urlencoded"
          "name=f.txt&size=2&type=text%2Fplain%3B+charset%3Dutf-8"),
        NetCall.storage (StorageRequest.mk "http://x/ep" (FormDataContentType "b0")
          (multipartEncoding "b0" (formFields samplePolicy.Form) "f.txt" "hi"))] ∧
    (Part000.UploadAttachmentFile sampleClientOk "T" "b0" sampleFs "acme" "f.txt").2 =
      [NetCall.policy (PolicyRequest.mk "T/acme/attachments/policies"
          "application/x-www-form-urlencoded"
          "name=f.txt&size=2&type=text%2Fplain%3B+charset%3Dutf-8"),
        NetCall.storage (StorageRequest.mk "http://x/ep" (FormDataContentType "b0")
          (multipartParts "b0" (formFields samplePolicy.Form) "f.txt" "hi"))] ∧
    multipartParts "b0" (formFields samplePolicy.Form) "f.txt" "hi" ++ "\r\n--b0--\r\n" =
      multipartEncoding "b0" (formFields samplePolicy.Form) "f.txt" "hi" ∧
    multipartParts "b0" (formFields samplePolicy.Form) "f.txt" "hi" ≠
      multipartEncoding "b0" (formFields samplePolicy.Form) "f.txt" "hi" := by
  refine ⟨rfl, rfl, rfl, by decide⟩

/-- Claim C2: when the filesystem read succeeds, the policy endpoint
returns a parsed policy, and the object-storage POST completes with
status 204, both variants of `UploadAttachmentFile` return exactly
`policy.Attachment.Url` of the parsed policy response, together with no
error. -/
theorem c2_success_returns_policy_url
    (c : Client) (TeamURL boundary : String) (fs : String → Except String String)
    (teamName path data : String) (policy : AttachmentPolicyResponse)
    (hfs : fs path = .ok data)
    (hp : ∀ u t b, c.postPolicy u t b = .ok policy)
    (hr : ∀ e ct bd, c.postRaw e ct bd = .ok 204) :
    (Part000.UploadAttachmentFile c TeamURL boundary fs teamName path).1 =
      (policy.Attachment.Url, none) ∧
    (AttachGo.UploadAttachmentFile c TeamURL boundary fs fs teamName path).1 =
      (policy.Attachment.Url, none) := by
  constructor
  · simp [Part000.UploadAttachmentFile, Part000.getFileInfo, postAttachmentPolicy,
      hfs, hp, hr, StatusNoContent]
  · simp [AttachGo.UploadAttachmentFile, AttachGo.getFileInfo, postAttachmentPolicy,
      hfs, hp, hr, StatusNoContent]

/-- Claim C2, witness: on the concrete stub returning 204, both variants
return the sample policy URL unchanged, with no error. -/
theorem c2_witness :
    (Part000.UploadAttachmentFile sampleClientOk "T" "b0" sampleFs "acme" "f.txt").1 =
      ("http://x/pub/f.txt", none) ∧
    (AttachGo.UploadAttachmentFile sampleClientOk "T" "b0" sampleFs sampleFs "acme" "f.txt").1 =
      ("http://x/pub/f.txt", none) :=
  c2_success_returns_policy_url sampleClientOk "T" "b0" sampleFs "acme" "f.txt" "hi"
    samplePolicy rfl (fun _ _ _ => rfl) (fun _ _ _ => rfl)

/-- Claim C3: when the object-storage POST completes with a status other
than 204, both variants return an error whose message contains the
textual status description, together with the empty string instead of a
URL. -/
theorem c3_non204_error_contains_status_text
    (c : Client) (TeamURL boundary : String) (fs : String → Except String String)
    (teamName path data : String) (policy : AttachmentPolicyResponse) (status : Nat)
    (hfs : fs path = .ok data)
    (hp : ∀ u t b, c.postPolicy u t b = .ok policy)
    (hr : ∀ e ct bd, c.postRaw e ct bd = .ok status)
    (hst : status ≠ 204) :
    (∃ msg, (Part000.UploadAttachmentFile c TeamURL boundary fs teamName path).1 =
        ("", some msg) ∧ ∃ pre post, msg = pre ++ StatusText status ++ post) ∧
    (∃ msg, (AttachGo.UploadAttachmentFile c TeamURL boundary fs fs teamName path).1 =
        ("", some msg) ∧ ∃ pre post, msg = pre ++ StatusText status ++ post) := by
  constructor
  · refine ⟨"HTTP status is not http.StatusNoContent: " ++ StatusText status ++ "\n", ?_,
      "HTTP status is not http.StatusNoContent: ", "\n", by simp⟩
    simp [Part000.UploadAttachmentFile, Part000.getFileInfo, postAttachmentPolicy,
      hfs, hp, hr, StatusNoContent, hst]
  · refine ⟨StatusText status, ?_, "", "", by simp⟩
    simp [AttachGo.UploadAttachmentFile, AttachGo.getFileInfo, postAttachmentPolicy,
      hfs, hp, hr, StatusNoContent, hst]

/-- Claim C3, witness: a stub object-storage endpoint returning 403 makes
both variants fail with a message containing `Forbidden`, the status text
of 403, and no URL. -/
theorem c3_witness :
    (∃ msg, (Part000.UploadAttachmentFile sampleClient403 "T" "b0" sampleFs "acme" "f.txt").1 =
        ("", some msg) ∧ ∃ pre post, msg = pre ++ StatusText 403 ++ post) ∧
    (∃ msg, (AttachGo.UploadAttachmentFile sampleClient403 "T" "b0" sampleFs sampleFs "acme" "f.txt").1 =
        ("", some msg) ∧ ∃ pre post, msg = pre ++ StatusText 403 ++ post) ∧
    StatusText 403 = "Forbidden" :=
  ⟨(c3_non204_error_contains_status_text sampleClient403 "T" "b0" sampleFs "acme" "f.txt"
      "hi" samplePolicy 403 rfl (fun _ _ _ => rfl) (fun _ _ _ => rfl) (by decide)).1,
   (c3_non204_error_contains_status_text sampleClient403 "T" "b0" sampleFs "acme" "f.txt"
      "hi" samplePolicy 403 rfl (fun _ _ _ => rfl) (fun _ _ _ => rfl) (by decide)).2,
   rfl⟩

/-- Claim C4: the three stages run strictly in sequence and failures
short-circuit, in both variants.  When inspection fails no network
request is issued; when inspection succeeds but the policy request fails,
exactly one policy request and no object-storage request is issued; when
both succeed, exactly one policy request followed by one object-storage
request is issued, in that order. -/
theorem c4_sequencing_short_circuit
    (c : Client) (TeamURL boundary : String) (fs : String → Except String String)
    (teamName path : String) :
    (∀ e, fs path = .error e →
      (Part000.UploadAttachmentFile c TeamURL boundary fs teamName path).2 = [] ∧
      (AttachGo.UploadAttachmentFile c TeamURL boundary fs fs teamName path).2 = []) ∧
    (∀ data er, fs path = .ok data → (∀ u t b, c.postPolicy u t b = .error er) →
      (∃ r, (Part000.UploadAttachmentFile c TeamURL boundary fs teamName path).2 =
        [NetCall.policy r]) ∧
      (∃ r, (AttachGo.UploadAttachmentFile c TeamURL boundary fs fs teamName path).2 =
        [NetCall.policy r])) ∧
    (∀ data policy, fs path = .ok data → (∀ u t b, c.postPolicy u t b = .ok policy) →
      (∃ r s, (Part000.UploadAttachmentFile c TeamURL boundary fs teamName path).2 =
        [NetCall.policy r, NetCall.storage s]) ∧
      (∃ r s, (AttachGo.UploadAttachmentFile c TeamURL boundary fs fs teamName path).2 =
        [NetCall.policy r, NetCall.storage s])) := by
  refine ⟨?_, ?_, ?_⟩
  · intro e he
    constructor
    · simp [Part000.UploadAttachmentFile, Part000.getFileInfo, he]
    · simp [AttachGo.UploadAttachmentFile, AttachGo.getFileInfo, he]
  · intro data er hfs hp
    constructor
    · simp only [Part000.UploadAttachmentFile, Part000.getFileInfo,
        postAttachmentPolicy, hfs, hp]
      exact ⟨_, rfl⟩
    · simp only [AttachGo.UploadAttachmentFile, AttachGo.getFileInfo,
        postAttachmentPolicy, hfs, hp]
      exact ⟨_, rfl⟩
  · intro data policy hfs hp
    constructor
    · simp only [Part000.UploadAttachmentFile, Part000.getFileInfo, postAttachmentPolicy,
        hfs, hp]
      repeat' split
      all_goals exact ⟨_, _, rfl⟩
    · simp only [AttachGo.UploadAttachmentFile, AttachGo.getFileInfo, postAttachmentPolicy,
        hfs, hp]
      repeat' split
      all_goals exact ⟨_, _, rfl⟩

/-- Claim C4, witness: on concrete stubs, an unreadable path issues no
request, a failing policy endpoint leaves exactly one policy request, and
the happy path issues the policy request then the storage request. -/
theorem c4_witness :
    ((Part000.UploadAttachmentFile sampleClientOk "T" "b0" sampleFs "acme" "missing.bin").2 = [] ∧
      (AttachGo.UploadAttachmentFile sampleClientOk "T" "b0" sampleFs sampleFs "acme" "missing.bin").2 = []) ∧
    ((∃ r, (Part000.UploadAttachmentFile sampleClientPolicyFail "T" "b0" sampleFs "acme" "f.txt").2 =
        [NetCall.policy r]) ∧
      (∃ r, (AttachGo.UploadAttachmentFile sampleClientPolicyFail "T" "b0" sampleFs sampleFs "acme" "f.txt").2 =
        [NetCall.policy r])) ∧
    ((∃ r s, (Part000.UploadAttachmentFile sampleClientOk "T" "b0" sampleFs "acme" "f.txt").2 =
        [NetCall.policy r, NetCall.storage s]) ∧
      (∃ r s, (AttachGo.UploadAttachmentFile sampleClientOk "T" "b0" sampleFs sampleFs "acme" "f.txt").2 =
        [NetCall.policy r, NetCall.storage s])) :=
  ⟨(c4_sequencing_short_circuit sampleClientOk "T" "b0" sampleFs "acme" "missing.bin").1
      "no such file" rfl,
   (c4_sequencing_short_circuit sampleClientPolicyFail "T" "b0" sampleFs "acme" "f.txt").2.1
      "hi" "boom" rfl (fun _ _ _ => rfl),
   (c4_sequencing_short_circuit sampleClientOk "T" "b0" sampleFs "acme" "f.txt").2.2
      "hi" samplePolicy rfl (fun _ _ _ => rfl)⟩

/-- Claim C5: for every readable file, `getFileInfo` (both variants)
returns values whose `size` is the decimal byte length of the content
actually read, whose `name` is the base name of the path (no separator
occurs in it when the path has any non-separator byte), and whose `type`
is `DetectContentType` of the read bytes — a function of the first 512
bytes of the content only, independent of the path and its extension. -/
theorem c5_getFileInfo_metadata
    (fs : String → Except String String) (path data : String)
    (hfs : fs path = .ok data)
    (hpath : ∃ ch ∈ path.data, ch ≠ '/') :
    Part000.getFileInfo fs path =
      (some [("type", [DetectContentType data]), ("name", [Base path]),
        ("size", [toString data.length])], some data, none) ∧
    AttachGo.getFileInfo fs path =
      (some [("type", [DetectContentType data]), ("name", [Base path]),
        ("size", [toString data.length])], none) ∧
    (Base path).data.all (fun ch => ch != '/') = true ∧
    DetectContentType data = DetectContentType (String.mk (data.data.take sniffLen)) ∧
    (∀ fs2 path2, fs2 path2 = .ok data →
      (Part000.getFileInfo fs2 path2).1 =
        some [("type", [DetectContentType data]), ("name", [Base path2]),
          ("size", [toString data.length])]) := by
  refine ⟨by simp [Part000.getFileInfo, hfs], by simp [AttachGo.getFileInfo, hfs],
    base_no_slash path hpath, ?_, ?_⟩
  · simp [DetectContentType, List.take_take]
  · intro fs2 path2 h2
    simp [Part000.getFileInfo, h2]

/-- Claim C5, witness: inspecting the concrete two-byte text file `f.txt`
yields the sniffed text type, the base name, and size `2`. -/
theorem c5_witness :
    Part000.getFileInfo sampleFs "f.txt" =
      (some [("type", ["text/plain; charset=utf-8"]), ("name", ["f.txt"]), ("size", ["2"])],
        some "hi", none) ∧
    ("hi" : String).length = 2 ∧
    (Base "f.txt").data.all (fun ch => ch != '/') = true := by
  have h := c5_getFileInfo_metadata sampleFs "f.txt" "hi" rfl
    ⟨'f', by decide, by decide⟩
  refine ⟨?_, by decide, h.2.2.1⟩
  have h1 := h.1
  simpa using h1

/-- Claim C6: the policy request is a POST to the URL formed exactly as
the base team URL, then `/`, then the team identifier, then
`/attachments/policies`, with content type
`application/x-www-form-urlencoded`, and its body is the URL-encoded
form of exactly the three keys `type`, `name` and `size` from the
metadata (Go emits them in sorted key order: `name`, `size`, `type`). -/
theorem c6_policy_request_shape
    (c : Client) (TeamURL teamName t n s : String) :
    (postAttachmentPolicy c TeamURL teamName
        [("type", [t]), ("name", [n]), ("size", [s])]).2 =
      PolicyRequest.mk (TeamURL ++ "/" ++ teamName ++ "/attachments/policies")
        "application/x-www-form-urlencoded"
        (("name=" ++ QueryEscape n) ++ "&" ++ ("size=" ++ QueryEscape s) ++ "&" ++
          ("type=" ++ QueryEscape t)) := by
  rfl

/-- Claim C6, witness: the concrete metadata of `f.txt` produces the
fully escaped three-key form body. -/
theorem c6_witness :
    (postAttachmentPolicy sampleClientOk "T" "acme"
        [("type", ["text/plain; charset=utf-8"]), ("name", ["f.txt"]), ("size", ["2"])]).2 =
      PolicyRequest.mk "T/acme/attachments/policies" "application/x-www-form-urlencoded"
        "name=f.txt&size=2&type=text%2Fplain%3B+charset%3Dutf-8" := by
  have h := c6_policy_request_shape sampleClientOk "T" "acme"
    "text/plain; charset=utf-8" "f.txt" "2"
  simpa using h

set_option maxRecDepth 20000 in
/-- Claim C7, counterexample: errors are not always enriched with the
stage name and the stage's inputs.  In the `part_000` variant, a policy
failure for team `acme` produces a message that nowhere contains the team
identifier, and a non-204 upload failure produces a message that nowhere
contains the endpoint; in the `attachment.go` variant, a policy failure
is returned as the bare underlying error, with no stage name at all. -/
theorem c7_counterexample :
    (Part000.UploadAttachmentFile sampleClientPolicyFail "T" "b0" sampleFs "acme" "f.txt").1 =
      ("", some ("postAttachmentPolicy Failed (values: map[name:[f.txt] size:[2] " ++
        "type:[text/plain; charset=utf-8]]): boom\n")) ∧
    hasSub "acme".data ("postAttachmentPolicy Failed (values: map[name:[f.txt] size:[2] " ++
        "type:[text/plain; charset=utf-8]]): boom\n").data = false ∧
    (Part000.UploadAttachmentFile sampleClient403 "T" "b0" sampleFs "acme" "f.txt").1 =
      ("", some "HTTP status is not http.StatusNoContent: Forbidden\n") ∧
    hasSub "http://x/ep".data "HTTP status is not http.StatusNoContent: Forbidden\n".data = false ∧
    (AttachGo.UploadAttachmentFile sampleClientPolicyFail "T" "b0" sampleFs sampleFs "acme" "f.txt").1 =
      ("", some "boom") ∧
    hasSub "getFileInfo".data "boom".data = false ∧
    hasSub "postAttachmentPolicy".data "boom".data = false := by
  refine ⟨rfl, by decide, rfl, by decide, rfl, by decide, by decide⟩

/-- Claim C7, amended: in the `part_000` variant every error is wrapped
with the name of the failing stage before being returned; inspection
failures carry the file path, policy failures carry the request values
(but not the team identifier), upload transport failures carry the
endpoint, and a non-204 response is reported with its status text only.
In the `attachment.go` variant every error is returned bare. -/
theorem c7_amended_error_enrichment
    (c : Client) (TeamURL boundary : String) (fs : String → Except String String)
    (teamName path : String) :
    (∀ e, fs path = .error e →
      (Part000.UploadAttachmentFile c TeamURL boundary fs teamName path).1.2 =
        some ("getFileInfo Failed (path: " ++ path ++ "): " ++ e ++ "\n") ∧
      (AttachGo.UploadAttachmentFile c TeamURL boundary fs fs teamName path).1.2 = some e) ∧
    (∀ data er, fs path = .ok data → (∀ u t b, c.postPolicy u t b = .error er) →
      (Part000.UploadAttachmentFile c TeamURL boundary fs teamName path).1.2 =
        some ("postAttachmentPolicy Failed (values: " ++
          fmtValues [("type", [DetectContentType data]), ("name", [Base path]),
            ("size", [toString data.length])] ++ "): " ++ er ++ "\n") ∧
      (AttachGo.UploadAttachmentFile c TeamURL boundary fs fs teamName path).1.2 = some er) ∧
    (∀ data policy er, fs path = .ok data → (∀ u t b, c.postPolicy u t b = .ok policy) →
      (∀ e ct bd, c.postRaw e ct bd = .error er) →
      (Part000.UploadAttachmentFile c TeamURL boundary fs teamName path).1.2 =
        some ("Post Failed (endpoint: " ++ policy.Attachment.Endpoint ++ "): " ++ er ++ "\n") ∧
      (AttachGo.UploadAttachmentFile c TeamURL boundary fs fs teamName path).1.2 = some er) ∧
    (∀ data policy status, fs path = .ok data → (∀ u t b, c.postPolicy u t b = .ok policy) →
      (∀ e ct bd, c.postRaw e ct bd = .ok status) → status ≠ 204 →
      (Part000.UploadAttachmentFile c TeamURL boundary fs teamName path).1.2 =
        some ("HTTP status is not http.StatusNoContent: " ++ StatusText status ++ "\n") ∧
      (AttachGo.UploadAttachmentFile c TeamURL boundary fs fs teamName path).1.2 =
        some (StatusText status)) := by
  refine ⟨?_, ?_, ?_, ?_⟩
  · intro e he
    constructor
    · simp [Part000.UploadAttachmentFile, Part000.getFileInfo, he]
    · simp [AttachGo.UploadAttachmentFile, AttachGo.getFileInfo, he]
  · intro data er hfs hp
    constructor
    · simp [Part000.UploadAttachmentFile, Part000.getFileInfo, postAttachmentPolicy, hfs, hp]
    · simp [AttachGo.UploadAttachmentFile, AttachGo.getFileInfo, postAttachmentPolicy, hfs, hp]
  · intro data policy er hfs hp hr
    constructor
    · simp [Part000.UploadAttachmentFile, Part000.getFileInfo, postAttachmentPolicy,
        hfs, hp, hr]
    · simp [AttachGo.UploadAttachmentFile, AttachGo.getFileInfo, postAttachmentPolicy,
        hfs, hp, hr]
  · intro data policy status hfs hp hr hst
    constructor
    · simp [Part000.UploadAttachmentFile, Part000.getFileInfo, postAttachmentPolicy,
        hfs, hp, hr, StatusNoContent, hst]
    · simp [AttachGo.UploadAttachmentFile, AttachGo.getFileInfo, postAttachmentPolicy,
        hfs, hp, hr, StatusNoContent, hst]

set_option maxRecDepth 20000 in
/-- Claim C7, witness for the amended statement: the four failure stages
on concrete stubs produce exactly the wrapped messages, and the
`attachment.go` variant returns the bare status text. -/
theorem c7_amended_witness :
    (Part000.UploadAttachmentFile sampleClientOk "T" "b0" sampleFs "acme" "missing.bin").1.2 =
      some ("getFileInfo Failed (path: missing.bin): no such file\n") ∧
    (Part000.UploadAttachmentFile sampleClientPolicyFail "T" "b0" sampleFs "acme" "f.txt").1.2 =
      some ("postAttachmentPolicy Failed (values: map[name:[f.txt] size:[2] " ++
        "type:[text/plain; charset=utf-8]]): boom\n") ∧
    (Part000.UploadAttachmentFile sampleClientRawFail "T" "b0" sampleFs "acme" "f.txt").1.2 =
      some "Post Failed (endpoint: http://x/ep): conn refused\n" ∧
    (Part000.UploadAttachmentFile sampleClient403 "T" "b0" sampleFs "acme" "f.txt").1.2 =
      some "HTTP status is not http.StatusNoContent: Forbidden\n" ∧
    (AttachGo.UploadAttachmentFile sampleClient403 "T" "b0" sampleFs sampleFs "acme" "f.txt").1.2 =
      some "Forbidden" := by
  refine ⟨?_, ?_, ?_, ?_, ?_⟩
  · have h := (c7_amended_error_enrichment sampleClientOk "T" "b0" sampleFs "acme"
      "missing.bin").1 "no such file" rfl
    simpa using h.1
  · have h := (c7_amended_error_enrichment sampleClientPolicyFail "T" "b0" sampleFs "acme"
      "f.txt").2.1 "hi" "boom" rfl (fun _ _ _ => rfl)
    simpa using h.1
  · have h := (c7_amended_error_enrichment sampleClientRawFail "T" "b0" sampleFs "acme"
      "f.txt").2.2.1 "hi" samplePolicy "conn refused" rfl (fun _ _ _ => rfl) (fun _ _ _ => rfl)
    simpa using h.1
  · have h := (c7_amended_error_enrichment sampleClient403 "T" "b0" sampleFs "acme"
      "f.txt").2.2.2 "hi" samplePolicy 403 rfl (fun _ _ _ => rfl) (fun _ _ _ => rfl) (by decide)
    simpa using h.1
  · have h := (c7_amended_error_enrichment sampleClient403 "T" "b0" sampleFs "acme"
      "f.txt").2.2.2 "hi" samplePolicy 403 rfl (fun _ _ _ => rfl) (fun _ _ _ => rfl) (by decide)
    simpa using h.2

/-- Claim C8: for every path that cannot be opened or fully read, both
variants of `getFileInfo` return the error and no metadata at all: every
metadata component of the Go multi-value return is nil. -/
theorem c8_inspection_failure_no_metadata
    (fs : String → Except String String) (path e : String)
    (h : fs path = .error e) :
    Part000.getFileInfo fs path = (none, none, some e) ∧
    AttachGo.getFileInfo fs path = (none, some e) := by
  constructor
  · simp [Part000.getFileInfo, h]
  · simp [AttachGo.getFileInfo, h]

/-- Claim C8, witness: a missing path yields only the error. -/
theorem c8_witness :
    Part000.getFileInfo sampleFs "missing.bin" = (none, none, some "no such file") ∧
    AttachGo.getFileInfo sampleFs "missing.bin" = (none, some "no such file") :=
  c8_inspection_failure_no_metadata sampleFs "missing.bin" "no such file" rfl

set_option maxRecDepth 20000 in
/-- Claim C9, counterexample: in the `attachment.go` variant the file is
opened and read a second time between the policy request and the upload.
With the file holding `hi` (two bytes, reported as size 2 in the policy
request) at inspection time and `XYZ` (three bytes) at upload time, the
POSTed multipart body carries `XYZ`, not the bytes whose length was
reported — the second independent read is observable in the uploaded
payload. -/
theorem c9_counterexample :
    (AttachGo.UploadAttachmentFile sampleClientOk "T" "b0" sampleFs sampleFsChanged
        "acme" "f.txt").2 =
      [NetCall.policy (PolicyRequest.mk "T/acme/attachments/policies"
          "application/x-www-form-urlencoded"
          "name=f.txt&size=2&type=text%2Fplain%3B+charset%3Dutf-8"),
        NetCall.storage (StorageRequest.mk "http://x/ep" (FormDataContentType "b0")
          (multipartEncoding "b0" (formFields samplePolicy.Form) "f.txt" "XYZ"))] ∧
    multipartEncoding "b0" (formFields samplePolicy.Form) "f.txt" "XYZ" ≠
      multipartEncoding "b0" (formFields samplePolicy.Form) "f.txt" "hi" ∧
    ("XYZ" : String).length ≠ ("hi" : String).length := by
  refine ⟨rfl, by decide, by decide⟩

/-- Claim C9, amended: in the `part_000` variant the multipart file part
carries exactly the bytes read during inspection — the same `data` whose
length is reported as `size` in the policy request — with no second read;
in the `attachment.go` variant the uploaded bytes are those of a second
independent read of the path, which coincide with the inspected bytes
only when the file content is unchanged between the two reads. -/
theorem c9_amended_uploaded_bytes
    (c : Client) (TeamURL boundary : String) (fs fs2 : String → Except String String)
    (teamName path data data2 : String) (policy : AttachmentPolicyResponse)
    (hfs : fs path = .ok data) (hfs2 : fs2 path = .ok data2)
    (hp : ∀ u t b, c.postPolicy u t b = .ok policy)
    (hr : ∀ e ct bd, c.postRaw e ct bd = .ok 204) :
    (∃ r, (Part000.UploadAttachmentFile c TeamURL boundary fs teamName path).2 =
      [NetCall.policy r, NetCall.storage (StorageRequest.mk policy.Attachment.Endpoint
        (FormDataContentType boundary)
        (multipartParts boundary (formFields policy.Form) (Base path) data))] ∧
      r.body = Values.Encode [("type", [DetectContentType data]), ("name", [Base path]),
        ("size", [toString data.length])]) ∧
    (∃ r, (AttachGo.UploadAttachmentFile c TeamURL boundary fs fs2 teamName path).2 =
      [NetCall.policy r, NetCall.storage (StorageRequest.mk policy.Attachment.Endpoint
        (FormDataContentType boundary)
        (multipartEncoding boundary (formFields policy.Form) (Base path) data2))]) := by
  constructor
  · refine ⟨PolicyRequest.mk (TeamURL ++ "/" ++ teamName ++ AttchmentPolicyURL)
      PolicyBodyType (Values.Encode [("type", [DetectContentType data]),
        ("name", [Base path]), ("size", [toString data.length])]), ?_, rfl⟩
    simp [Part000.UploadAttachmentFile, Part000.getFileInfo, postAttachmentPolicy,
      hfs, hp, hr, StatusNoContent, multipartParts]
  · refine ⟨PolicyRequest.mk (TeamURL ++ "/" ++ teamName ++ AttchmentPolicyURL)
      PolicyBodyType (Values.Encode [("type", [DetectContentType data]),
        ("name", [Base path]), ("size", [toString data.length])]), ?_⟩
    simp [AttachGo.UploadAttachmentFile, AttachGo.getFileInfo, postAttachmentPolicy,
      hfs, hfs2, hp, hr, StatusNoContent, multipartEncoding, multipartParts,
      MPWriter.CloseWriter, boundary_CreateFormFile, boundary_foldl_WriteField,
      String.append_assoc]

set_option maxRecDepth 20000 in
/-- Claim C9, witness for the amended statement: with the file unchanged,
both variants upload the inspected bytes `hi`, whose length 2 is the
reported size. -/
theorem c9_amended_witness :
    (∃ r, (Part000.UploadAttachmentFile sampleClientOk "T" "b0" sampleFs "acme" "f.txt").2 =
      [NetCall.policy r, NetCall.storage (StorageRequest.mk "http://x/ep"
        (FormDataContentType "b0")
        (multipartParts "b0" (formFields samplePolicy.Form) "f.txt" "hi"))] ∧
      r.body = "name=f.txt&size=2&type=text%2Fplain%3B+charset%3Dutf-8") ∧
    (∃ r, (AttachGo.UploadAttachmentFile sampleClientOk "T" "b0" sampleFs sampleFs "acme" "f.txt").2 =
      [NetCall.policy r, NetCall.storage (StorageRequest.mk "http://x/ep"
        (FormDataContentType "b0")
        (multipartEncoding "b0" (formFields samplePolicy.Form) "f.txt" "hi"))]) :=
  c9_amended_uploaded_bytes sampleClientOk "T" "b0" sampleFs sampleFs "acme" "f.txt"
    "hi" "hi" samplePolicy rfl rfl (fun _ _ _ => rfl) (fun _ _ _ => rfl)

/-- Claim C10: on every path of both variants of `UploadAttachmentFile`,
either no error is returned, or the returned URL string is exactly the
empty string — a non-empty URL is never returned together with an error. -/
theorem c10_error_paths_return_empty_url
    (c : Client) (TeamURL boundary : String)
    (fs fs1 fs2 : String → Except String String) (teamName path : String) :
    ((Part000.UploadAttachmentFile c TeamURL boundary fs teamName path).1.2 = none ∨
      (Part000.UploadAttachmentFile c TeamURL boundary fs teamName path).1.1 = "") ∧
    ((AttachGo.UploadAttachmentFile c TeamURL boundary fs1 fs2 teamName path).1.2 = none ∨
      (AttachGo.UploadAttachmentFile c TeamURL boundary fs1 fs2 teamName path).1.1 = "") := by
  constructor
  · simp only [Part000.UploadAttachmentFile]
    repeat' split
    all_goals simp
  · simp only [AttachGo.UploadAttachmentFile]
    repeat' split
    all_goals simp
